import Mathlib

/-!
Shallow embedding of the VibeTree git wrapper layer
(`packages/core/src/utils/git.ts`) and the REST routes
(`apps/server/src/api/rest.ts`).

The subprocess boundary is modelled by an explicit `ProcessOutcome` value:
each call of `executeGitCommand` is a pure function of the arguments, the
working directory, the `PATH` environment value, and the outcome the spawned
child process produced (an exit with accumulated stdout/stderr text, or a
spawn-level error event).  JavaScript `Error` values are modelled by
`JsError` (an optional errno-style `code` plus a `message`), and a rejected
promise is `Except.error`.
-/

namespace VibeTree

/-- Model of a JavaScript `Error` object: optional errno-style `code`
(as carried by Node spawn errors, e.g. `ENOENT`) and a `message`. -/
structure JsError where
  code : Option String
  message : String
  deriving Repr, DecidableEq

/-- JavaScript string conversion of an `Error` value, as produced by a
template literal: `"Error: <message>"`, or just `"Error"` when the message
is empty. -/
def jsErrorToString (e : JsError) : String :=
  if e.message = "" then "Error" else "Error: " ++ e.message

/-- Outcome of one spawned child process, as observed by the executor:
either the `close` event with the (possibly null) exit code and the
accumulated stdout and stderr text, or the `error` event with the spawn
error. -/
inductive ProcessOutcome where
  | exited (code : Option Int) (stdout stderr : String)
  | errored (e : JsError)
  deriving Repr, DecidableEq

/-- Space-separated rendering of an argument list, as `args.join(' ')`. -/
def joinArgs : List String → String
  | [] => ""
  | [a] => a
  | a :: rest => a ++ " " ++ joinArgs rest

/-- Diagnostic message produced on an `ENOENT` spawn error: names the
attempted command line and the current `PATH` value. -/
def gitNotFoundMessage (args : List String) (pathEnv : String) : String :=
  "Git executable not found. Please ensure git is installed and available in your PATH.\n" ++
  "Command attempted: git " ++ joinArgs args ++ "\n" ++
  "Current PATH: " ++ pathEnv

/-- Embedding of `executeGitCommand(args, cwd)` from
`packages/core/src/utils/git.ts`: resolves with the accumulated stdout when
the process exits with code 0; rejects with `new Error(stderr || "Git
command failed: git <args>")` on any other exit; on a spawn `error` event
with code `ENOENT` rejects with the executable-not-found diagnostic
(embedding the attempted command line and the current `PATH`), and
otherwise rejects with the original spawn error. -/
def executeGitCommand (args : List String) (cwd pathEnv : String)
    (o : ProcessOutcome) : Except JsError String :=
  match o with
  | .exited code stdout stderr =>
    if code = some 0 then
      .ok stdout
    else
      .error { code := none,
               message := if stderr = "" then
                   "Git command failed: git " ++ joinArgs args
                 else stderr }
  | .errored e =>
    if e.code = some "ENOENT" then
      .error { code := none, message := gitNotFoundMessage args pathEnv }
    else
      .error e
  -- `cwd` is passed to `spawn` and does not influence the settled value
  -- beyond the child process behaviour already captured by `o`.

/-- Substring test with the semantics of JavaScript
`String.prototype.includes`, written structurally over the character
lists. -/
def containsSub (sub : List Char) : List Char → Bool
  | [] => sub.isEmpty
  | x :: rest => sub.isPrefixOf (x :: rest) || containsSub sub rest

/-- JavaScript `s.includes(sub)`. -/
def strIncludes (s sub : String) : Bool :=
  containsSub sub.data s.data

/-! Node `path` module (posix flavour), as used by `addWorktree`:
`path.basename` and `path.join` (join with `/` then normalize, resolving
`.` and `..` segments). -/

/-- Split a character list on a separator character; mirrors the record
structure of JavaScript `s.split(c)` (an empty input yields one empty
field). -/
def splitOnChar (c : Char) : List Char → List (List Char)
  | [] => [[]]
  | x :: xs =>
    let r := splitOnChar c xs
    if x = c then [] :: r
    else
      match r with
      | [] => [[x]]
      | g :: gs => (x :: g) :: gs

/-- Node posix `path.basename(p)` (no extension argument): the last
portion of the path, ignoring trailing separators; empty when the path
consists only of separators. -/
def pathBasename (p : String) : String :=
  let noTrail := (p.data.reverse.dropWhile (fun c => c = '/')).reverse
  String.mk ((noTrail.reverse.takeWhile (fun c => c ≠ '/')).reverse)

/-- Segment resolution of Node `normalizeString`: drop empty and `.`
segments; `..` pops the previous segment, or is kept (relative paths) /
dropped (absolute paths) when there is nothing to pop.  `allow` is
`allowAboveRoot`, i.e. the path is relative.  The accumulator holds the
resolved segments in reverse. -/
def normSegs (allow : Bool) (acc : List String) : List String → List String
  | [] => acc.reverse
  | seg :: rest =>
    if seg = "" ∨ seg = "." then normSegs allow acc rest
    else if seg = ".." then
      match acc with
      | [] => if allow then normSegs allow [".."] rest else normSegs allow [] rest
      | s :: tail =>
        if s = ".." then
          if allow then normSegs allow (".." :: s :: tail) rest
          else normSegs allow (s :: tail) rest
        else normSegs allow tail rest
    else normSegs allow (seg :: acc) rest

/-- Join a list of strings with a separator string. -/
def joinWith (sep : String) : List String → String
  | [] => ""
  | [a] => a
  | a :: rest => a ++ sep ++ joinWith sep rest

/-- Node posix `path.normalize(p)`. -/
def pathNormalize (p : String) : String :=
  if p = "" then "."
  else
    let isAbs := p.data.head? = some '/'
    let trailingSep := p.data.getLast? = some '/'
    let segs := normSegs (!isAbs) [] ((splitOnChar '/' p.data).map String.mk)
    let body := joinWith "/" segs
    if body = "" then
      if isAbs then "/" else if trailingSep then "./" else "."
    else
      let body := if trailingSep then body ++ "/" else body
      if isAbs then "/" ++ body else body

/-- Node posix `path.join(parts)`: concatenate the non-empty parts with
`/` and normalize; `"."` when every part is empty. -/
def pathJoin (parts : List String) : String :=
  match parts.filter (fun s => s ≠ "") with
  | [] => "."
  | ps => pathNormalize (joinWith "/" ps)

/-! Data model (`packages/core/src/types`), as described by the spec and
consumed by `git.ts`. -/

/-- One worktree record produced by the worktree-list parser. -/
structure Worktree where
  path : String
  branch : String
  isMain : Bool
  isLocked : Bool
  head : String
  deriving Repr, DecidableEq

/-- One entry of `git status --porcelain=v1` output. -/
structure GitStatus where
  path : String
  indexState : Char
  worktreeState : Char
  deriving Repr, DecidableEq

/-- Result of `addWorktree`. -/
structure WorktreeAddResult where
  path : String
  branch : String
  deriving Repr, DecidableEq

/-- Result of `removeWorktree`. -/
structure WorktreeRemoveResult where
  success : Bool
  warning : Option String
  deriving Repr, DecidableEq

/-- One git invocation: the argument list and the working directory it is
issued in. -/
structure GitCall where
  args : List String
  cwd : String
  deriving Repr, DecidableEq

/-! Worktree-list parser.  The implementation file
(`packages/core/src/utils/git-parser.ts`) is only imported by `git.ts`;
its behaviour is modelled from the spec (§4.2). -/

/-- Prefix test on strings, written structurally over the character
lists. -/
def strStartsWith (s p : String) : Bool :=
  p.data.isPrefixOf s.data

/-- Drop the first `n` characters of a string. -/
def strDrop (s : String) (n : Nat) : String :=
  String.mk (s.data.drop n)

/-- Strip a leading `refs/heads/` from a ref name. -/
def stripRefsHeads (s : String) : String :=
  if strStartsWith s "refs/heads/" then strDrop s 11 else s

/-- Group the lines of porcelain output into records: maximal runs of
non-blank lines, separated by one or more blank lines.  The accumulator
holds the current record's lines in reverse. -/
def groupRecords (cur : List String) : List String → List (List String)
  | [] => if cur = [] then [] else [cur.reverse]
  | l :: rest =>
    if l = "" then
      if cur = [] then groupRecords [] rest
      else cur.reverse :: groupRecords [] rest
    else groupRecords (l :: cur) rest

/-- A worktree record before any line of its porcelain record is read:
empty path, head and branch, not locked.  A record that never sees a
`branch` line (a detached-HEAD worktree) keeps the empty-string branch
sentinel. -/
def emptyWorktree (isMain : Bool) : Worktree :=
  { path := "", branch := "", isMain := isMain, isLocked := false, head := "" }

/-- Read one line of a worktree-list record into the record being built:
`worktree <path>`, `HEAD <hash>`, `branch <ref>` (stripped of
`refs/heads/`), the presence-only `locked` flag; unrecognized keys (such
as `bare`, which has no field in the `Worktree` model) are ignored. -/
def applyWorktreeLine (w : Worktree) (l : String) : Worktree :=
  if strStartsWith l "worktree " then { w with path := strDrop l 9 }
  else if strStartsWith l "HEAD " then { w with head := strDrop l 5 }
  else if strStartsWith l "branch " then { w with branch := stripRefsHeads (strDrop l 7) }
  else if l = "locked" ∨ strStartsWith l "locked " then { w with isLocked := true }
  else w

/-- Parse one blank-line-delimited record into a `Worktree`. -/
def parseWorktreeRecord (isMain : Bool) (lines : List String) : Worktree :=
  lines.foldl applyWorktreeLine (emptyWorktree isMain)

/-- Parse the lines of `git worktree list --porcelain` output: one
`Worktree` per blank-line-separated record, the first record marked as the
main worktree and all others as linked worktrees. -/
def parseWorktreeLines (lines : List String) : List Worktree :=
  match groupRecords [] lines with
  | [] => []
  | g :: gs => parseWorktreeRecord true g :: gs.map (parseWorktreeRecord false)

/-- Split a string into its lines (fields between `\n` characters). -/
def splitLines (s : String) : List String :=
  (splitOnChar (Char.ofNat 10) s.data).map String.mk

/-- Modelled from the spec: `parseWorktrees` of
`packages/core/src/utils/git-parser.ts` (the file is not part of the
sources, only its importer `git.ts` is).  Per §4.2, the input is a
sequence of records separated by blank lines, each record a sequence of
lines `key value` or bare `key` with recognized keys `worktree`, `HEAD`,
`branch` (stripped of `refs/heads/`), `bare` and `locked`; the first
record is the main worktree.  A detached-HEAD record (no `branch` line)
parses with the empty string as its branch sentinel. -/
def parseWorktrees (text : String) : List Worktree :=
  parseWorktreeLines (splitLines text)

/-! Git operations of `packages/core/src/utils/git.ts`. -/

/-- Embedding of `listWorktrees(projectPath)`: run
`git worktree list --porcelain` in the project directory and parse its
stdout. -/
def listWorktrees (projectPath pathEnv : String) (o : ProcessOutcome) :
    Except JsError (List Worktree) :=
  (executeGitCommand ["worktree", "list", "--porcelain"] projectPath pathEnv o).map
    parseWorktrees

/-- Embedding of `getGitDiff(worktreePath, filePath?)`: run
`git diff [filePath]` and return the stdout verbatim. -/
def getGitDiff (worktreePath pathEnv : String) (filePath : Option String)
    (o : ProcessOutcome) : Except JsError String :=
  let args := ["diff"] ++ (match filePath with | some f => [f] | none => [])
  executeGitCommand args worktreePath pathEnv o

/-- Embedding of `addWorktree(projectPath, branchName)`: compute the
target directory `path.join(projectPath, '..',
basename(projectPath) + '-' + branchName)`, run
`git worktree add -b <branchName> <target>` in the project directory, and
on success return the computed path and branch.  The second component
records the git invocations issued. -/
def addWorktree (projectPath branchName pathEnv : String) (o : ProcessOutcome) :
    Except JsError WorktreeAddResult × List GitCall :=
  let worktreePath :=
    pathJoin [projectPath, "..", pathBasename projectPath ++ "-" ++ branchName]
  let call : GitCall := ⟨["worktree", "add", "-b", branchName, worktreePath], projectPath⟩
  match executeGitCommand call.args projectPath pathEnv o with
  | .ok _ => (.ok ⟨worktreePath, branchName⟩, [call])
  | .error e => (.error e, [call])

/-- Embedding of `removeWorktree(projectPath, worktreePath, branchName)`:
run `git worktree remove <worktreePath> --force`; on success run
`git branch -D <branchName>`, downgrading a branch-deletion failure to a
success with a warning; a worktree-removal failure rejects with a wrapped
message.  `removeOutcome` and `branchOutcome` are the outcomes of the two
child processes (the second is consulted only when the first command
succeeds). -/
def removeWorktree (projectPath worktreePath branchName pathEnv : String)
    (removeOutcome branchOutcome : ProcessOutcome) :
    Except JsError WorktreeRemoveResult :=
  match executeGitCommand ["worktree", "remove", worktreePath, "--force"]
      projectPath pathEnv removeOutcome with
  | .ok _ =>
    match executeGitCommand ["branch", "-D", branchName] projectPath pathEnv
        branchOutcome with
    | .ok _ => .ok { success := true, warning := none }
    | .error branchError =>
      .ok { success := true,
            warning := some ("Worktree removed but failed to delete branch: " ++
              jsErrorToString branchError) }
  | .error e =>
    .error { code := none,
             message := "Failed to remove worktree: " ++ jsErrorToString e }

/-- Embedding of `isGitRepository(path)`: probe `git rev-parse --git-dir`
in the directory; `true` on success, `false` on any rejection. -/
def isGitRepository (p pathEnv : String) (o : ProcessOutcome) : Bool :=
  match executeGitCommand ["rev-parse", "--git-dir"] p pathEnv o with
  | .ok _ => true
  | .error _ => false

/-- Embedding of `isGitAvailable()`: probe `git --version`; on a rejection
whose message includes the text `Git executable not found` return `false`,
on any other rejection (or on success) return `true`. -/
def isGitAvailable (cwd pathEnv : String) (o : ProcessOutcome) : Bool :=
  match executeGitCommand ["--version"] cwd pathEnv o with
  | .ok _ => true
  | .error e => !(strIncludes e.message "Git executable not found")

/-! REST routes of `apps/server/src/api/rest.ts`.  Each git route handler
is a pure function of the request-body fields (each possibly absent, as
`req.body.<field>` is `undefined` when missing) and of the behaviour of
the git operation it delegates to, given as an oracle function; the
handler passes the body fields to the oracle unexamined. -/

/-- Reply of a git REST route: `res.json(body)` (status 200) or
`res.status(s).json(\x7b error \x7d)`. -/
inductive GitRouteReply (α : Type) where
  | json (status : Nat) (body : α)
  | jsonError (status : Nat) (error : String)
  deriving Repr, DecidableEq

/-- HTTP status of a git-route reply. -/
def GitRouteReply.status {α : Type} : GitRouteReply α → Nat
  | .json s _ => s
  | .jsonError s _ => s

/-- Request body of the git routes: the four fields any of them reads,
each possibly absent. -/
structure GitBody where
  projectPath : Option String
  worktreePath : Option String
  branchName : Option String
  filePath : Option String
  deriving Repr, DecidableEq

/-- Shared try/catch translation of every git route: 200 with the
operation's result, or 500 with `(error as Error).message`. -/
def wrapGitRoute {α : Type} : Except JsError α → GitRouteReply α
  | .ok x => .json 200 x
  | .error e => .jsonError 500 e.message

/-- Handler of `POST /api/git/worktrees`: delegates
`req.body.projectPath` to `listWorktrees`. -/
def gitWorktreesRoute (body : GitBody)
    (listWorktreesOp : Option String → Except JsError (List Worktree)) :
    GitRouteReply (List Worktree) :=
  wrapGitRoute (listWorktreesOp body.projectPath)

/-- Handler of `POST /api/git/status`: delegates `req.body.worktreePath`
to `getGitStatus`. -/
def gitStatusRoute (body : GitBody)
    (getGitStatusOp : Option String → Except JsError (List GitStatus)) :
    GitRouteReply (List GitStatus) :=
  wrapGitRoute (getGitStatusOp body.worktreePath)

/-- Handler of `POST /api/git/diff`: delegates `req.body.worktreePath` and
`req.body.filePath` to `getGitDiff`; the 200 body is the diff text
(wrapped as `\x7b diff \x7d`). -/
def gitDiffRoute (body : GitBody)
    (getGitDiffOp : Option String → Option String → Except JsError String) :
    GitRouteReply String :=
  wrapGitRoute (getGitDiffOp body.worktreePath body.filePath)

/-- Handler of `POST /api/git/worktree/add`: delegates
`req.body.projectPath` and `req.body.branchName` to `addWorktree`. -/
def gitWorktreeAddRoute (body : GitBody)
    (addWorktreeOp : Option String → Option String → Except JsError WorktreeAddResult) :
    GitRouteReply WorktreeAddResult :=
  wrapGitRoute (addWorktreeOp body.projectPath body.branchName)

/-- Handler of `DELETE /api/git/worktree`: delegates
`req.body.projectPath`, `req.body.worktreePath` and `req.body.branchName`
to `removeWorktree`. -/
def gitWorktreeDeleteRoute (body : GitBody)
    (removeWorktreeOp :
      Option String → Option String → Option String →
        Except JsError WorktreeRemoveResult) :
    GitRouteReply WorktreeRemoveResult :=
  wrapGitRoute (removeWorktreeOp body.projectPath body.worktreePath body.branchName)

/-- Result of `validatePath` from `@vibetree/core` (an external
collaborator of the route, supplied as data). -/
structure PathValidation where
  valid : Bool
  error : Option String
  deriving Repr, DecidableEq

/-- Reply of `GET /api/directories`: the HTTP status, the body's `error`
and `details` fields when present, and the directory listing on
success. -/
structure DirectoriesReply where
  status : Nat
  error : Option String
  details : Option String
  directories : Option (List String)
  deriving Repr, DecidableEq

/-- Handler of `GET /api/directories`: rejects a missing, empty or
over-long (> 1000) `path` query parameter with 400; then validates the
path (400 with `error` and `details` fields when invalid, per
`validation.error || 'Path is not accessible'`); then lists directories;
a thrown error from either collaborator (the `Except.error` case of the
corresponding oracle argument) is caught and mapped to 500. -/
def directoriesRoute (pathParam : Option String)
    (validateRes : Except String PathValidation)
    (listRes : Except String (List String)) : DirectoriesReply :=
  match pathParam with
  | none =>
    { status := 400, error := some "Invalid path parameter",
      details := none, directories := none }
  | some p =>
    if p = "" ∨ p.length > 1000 then
      { status := 400, error := some "Invalid path parameter",
        details := none, directories := none }
    else
      match validateRes with
      | .error _ =>
        { status := 500, error := some "Directory operation failed",
          details := none, directories := none }
      | .ok v =>
        if v.valid then
          match listRes with
          | .error _ =>
            { status := 500, error := some "Directory operation failed",
              details := none, directories := none }
          | .ok dirs =>
            { status := 200, error := none, details := none,
              directories := some dirs }
        else
          { status := 400, error := some "Invalid path",
            details := some (match v.error with
              | some e => if e = "" then "Path is not accessible" else e
              | none => "Path is not accessible"),
            directories := none }

/-! Abstract worktree-list records and their porcelain rendering, used to
state the parser's record-counting property over arbitrary valid
porcelain texts. -/

/-- Abstract content of one worktree-list porcelain record: the worktree
path, the optional `HEAD` hash, the optional branch (absent for a
detached-HEAD worktree), and the `bare` and `locked` flags. -/
structure RawRecord where
  path : String
  head : Option String
  branch : Option String
  bare : Bool
  locked : Bool
  deriving Repr, DecidableEq

/-- Porcelain lines of one record. -/
def renderRecord (r : RawRecord) : List String :=
  ["worktree " ++ r.path]
  ++ (match r.head with | some h => ["HEAD " ++ h] | none => [])
  ++ (match r.branch with | some b => ["branch refs/heads/" ++ b] | none => [])
  ++ (if r.bare then ["bare"] else [])
  ++ (if r.locked then ["locked"] else [])

/-- Porcelain lines of a record list: the records' lines separated by one
blank line. -/
def renderRecords : List RawRecord → List String
  | [] => []
  | [r] => renderRecord r
  | r :: rest => renderRecord r ++ "" :: renderRecords rest

/-! Helper lemmas. -/

/-- Character data of an appended string. -/
theorem strData_append (s t : String) : (s ++ t).data = s.data ++ t.data := by
  cases s; cases t; rfl

/-- Correctness of `containsSub`: it decides the infix relation. -/
theorem containsSub_iff (sub l : List Char) : containsSub sub l = true ↔ sub <:+: l := by
  induction l with
  | nil => simp [containsSub, List.isEmpty_iff, List.infix_nil]
  | cons x rest ih =>
    simp [containsSub, List.isPrefixOf_iff_prefix, List.infix_cons_iff, ih]

/-- A string includes any substring its data provably sits inside. -/
theorem strIncludes_of_data_infix (s sub : String) (h : sub.data <:+: s.data) :
    strIncludes s sub = true := by
  simpa [strIncludes, containsSub_iff] using h

/-- A string of the shape `a ++ sub ++ b` includes `sub`. -/
theorem strIncludes_sandwich (a sub b : String) : strIncludes (a ++ sub ++ b) sub = true := by
  apply strIncludes_of_data_infix
  rw [strData_append, strData_append]
  exact List.infix_append _ _ _

/-- A string of the shape `a ++ sub` includes `sub`. -/
theorem strIncludes_suffix (a sub : String) : strIncludes (a ++ sub) sub = true := by
  apply strIncludes_of_data_infix
  rw [strData_append]
  exact (List.suffix_append _ _).isInfix

/-- Appending cannot erase a non-empty left part. -/
theorem strAppend_ne_empty_left (a b : String) (h : a.length ≠ 0) : a ++ b ≠ "" := by
  intro he
  have hl := congrArg String.length he
  rw [String.length_append] at hl
  simp only [String.length_empty] at hl
  exact h (Nat.eq_zero_of_add_eq_zero_right hl)

/-! Claim theorems. -/

/-- C2: for every argument list and working directory,
`executeGitCommand` resolves with the accumulated stdout text exactly when
the spawned process exits with status 0; on any other exit it rejects,
with the accumulated stderr text as the error message, or, when stderr is
empty, with the synthesized message naming the command and its
arguments. -/
theorem C2_executeGitCommand_exit (args : List String) (cwd pathEnv out err : String) :
    executeGitCommand args cwd pathEnv (.exited (some 0) out err) = .ok out
    ∧ (∀ c : Option Int, c ≠ some 0 →
        executeGitCommand args cwd pathEnv (.exited c out err) =
          .error ⟨none,
            if err = "" then "Git command failed: git " ++ joinArgs args else err⟩)
    ∧ (∀ (c : Option Int) (s : String),
        executeGitCommand args cwd pathEnv (.exited c out err) = .ok s →
          c = some 0 ∧ s = out) := by
  refine ⟨by simp [executeGitCommand], ?_, ?_⟩
  · intro c hc
    simp [executeGitCommand, hc]
  · intro c s h
    by_cases hc : c = some 0
    · subst hc
      simp [executeGitCommand] at h
      exact ⟨rfl, h.symm⟩
    · simp [executeGitCommand, hc] at h

/-- Witness for C2 at concrete inputs: a zero exit resolves with stdout, a
non-zero exit with non-empty stderr rejects with the stderr text, and a
non-zero exit with empty stderr rejects with the synthesized message. -/
theorem C2_executeGitCommand_exit_witness :
    executeGitCommand ["status", "--porcelain=v1"] "/repo" "/usr/bin"
        (.exited (some 0) " M a.txt\n" "") = .ok " M a.txt\n"
    ∧ executeGitCommand ["status", "--porcelain=v1"] "/repo" "/usr/bin"
        (.exited (some 1) "" "fatal: not a git repository") =
      .error ⟨none, "fatal: not a git repository"⟩
    ∧ executeGitCommand ["status", "--porcelain=v1"] "/repo" "/usr/bin"
        (.exited (some 1) "" "") =
      .error ⟨none, "Git command failed: git status --porcelain=v1"⟩ := by
  refine ⟨(C2_executeGitCommand_exit ["status", "--porcelain=v1"] "/repo" "/usr/bin"
    " M a.txt\n" "").1, ?_, ?_⟩
  · have h := (C2_executeGitCommand_exit ["status", "--porcelain=v1"] "/repo" "/usr/bin"
      "" "fatal: not a git repository").2.1 (some 1) (by decide)
    simpa using h
  · have h := (C2_executeGitCommand_exit ["status", "--porcelain=v1"] "/repo" "/usr/bin"
      "" "").2.1 (some 1) (by decide)
    simpa using h

/-- C5: when spawning fails with the `ENOENT` (executable missing) error,
`executeGitCommand` rejects with a diagnostic that embeds the attempted
command line (`git <args>`) and the current search-path value; any other
spawn-level failure is rejected with the original error unchanged. -/
theorem C5_executeGitCommand_spawn (args : List String) (cwd pathEnv : String) :
    (∀ m : String,
      executeGitCommand args cwd pathEnv (.errored ⟨some "ENOENT", m⟩) =
        .error ⟨none,
          "Git executable not found. Please ensure git is installed and available in your PATH.\n" ++
          "Command attempted: git " ++ joinArgs args ++ "\n" ++
          "Current PATH: " ++ pathEnv⟩)
    ∧ (∀ (m : String) (e' : JsError),
        executeGitCommand args cwd pathEnv (.errored ⟨some "ENOENT", m⟩) = .error e' →
          strIncludes e'.message ("git " ++ joinArgs args) = true
          ∧ strIncludes e'.message pathEnv = true)
    ∧ (∀ e : JsError, e.code ≠ some "ENOENT" →
        executeGitCommand args cwd pathEnv (.errored e) = .error e) := by
  refine ⟨?_, ?_, ?_⟩
  · intro m
    simp [executeGitCommand, gitNotFoundMessage]
  · intro m e' h
    have h' : (⟨none, gitNotFoundMessage args pathEnv⟩ : JsError) = e' := by
      simpa [executeGitCommand] using h
    obtain rfl := h'.symm
    constructor
    · have hsplit : gitNotFoundMessage args pathEnv =
          ("Git executable not found. Please ensure git is installed and available in your PATH.\nCommand attempted: " ++
            ("git " ++ joinArgs args) ++
            ("\n" ++ ("Current PATH: " ++ pathEnv))) := by
        apply String.ext
        simp [gitNotFoundMessage, strData_append]
      show strIncludes (gitNotFoundMessage args pathEnv) ("git " ++ joinArgs args) = true
      rw [hsplit]
      exact strIncludes_sandwich _ _ _
    · show strIncludes (gitNotFoundMessage args pathEnv) pathEnv = true
      show strIncludes
        (("Git executable not found. Please ensure git is installed and available in your PATH.\n" ++
          "Command attempted: git " ++ joinArgs args ++ "\n" ++
          "Current PATH: ") ++ pathEnv) pathEnv = true
      exact strIncludes_suffix _ _
  · intro e he
    simp [executeGitCommand, he]

/-- Witness for C5 at concrete inputs: a non-`ENOENT` spawn error is
propagated unchanged, and the `ENOENT` diagnostic includes the attempted
command line and the search path. -/
theorem C5_executeGitCommand_spawn_witness :
    executeGitCommand ["--version"] "/repo" "/usr/bin:/bin"
        (.errored ⟨some "EACCES", "spawn git EACCES"⟩) =
      .error ⟨some "EACCES", "spawn git EACCES"⟩
    ∧ strIncludes (gitNotFoundMessage ["--version"] "/usr/bin:/bin") "git --version" = true
    ∧ strIncludes (gitNotFoundMessage ["--version"] "/usr/bin:/bin") "/usr/bin:/bin" = true := by
  have hthm := C5_executeGitCommand_spawn ["--version"] "/repo" "/usr/bin:/bin"
  have h2 := hthm.2.1 "spawn git ENOENT" ⟨none, gitNotFoundMessage ["--version"] "/usr/bin:/bin"⟩
    rfl
  exact ⟨hthm.2.2 ⟨some "EACCES", "spawn git EACCES"⟩ (by decide),
    by simpa using h2.1, by simpa using h2.2⟩

/-- C4, counterexample: a non-zero exit of the `git --version` probe whose
stderr text happens to contain `Git executable not found` makes
`isGitAvailable` return `false`, although the claim requires `true` for
every non-zero exit. -/
theorem C4_isGitAvailable_counterexample :
    isGitAvailable "/repo" "/usr/bin"
      (.exited (some 1) "" "Git executable not found") = false := by decide

/-- C4 (amended): `isGitAvailable` returns `false` on the `ENOENT`
(executable missing) spawn failure, and more generally exactly when the
probe rejects with a message containing the text `Git executable not
found` (both directions: every rejection whose message contains the text
yields `false`, and `false` only arises from such a rejection); every
other outcome — a success, a non-zero exit whose stderr does not contain
that text, or another spawn error whose message does not contain it —
yields `true`. -/
theorem C4_isGitAvailable_amended (cwd pathEnv : String) :
    (∀ m, isGitAvailable cwd pathEnv (.errored ⟨some "ENOENT", m⟩) = false)
    ∧ (∀ out err, isGitAvailable cwd pathEnv (.exited (some 0) out err) = true)
    ∧ (∀ (c : Option Int) (out err : String), c ≠ some 0 →
        strIncludes err "Git executable not found" = false →
        isGitAvailable cwd pathEnv (.exited c out err) = true)
    ∧ (∀ e : JsError, e.code ≠ some "ENOENT" →
        strIncludes e.message "Git executable not found" = false →
        isGitAvailable cwd pathEnv (.errored e) = true)
    ∧ (∀ (o : ProcessOutcome) (e : JsError),
        executeGitCommand ["--version"] cwd pathEnv o = .error e →
        strIncludes e.message "Git executable not found" = true →
        isGitAvailable cwd pathEnv o = false)
    ∧ (∀ o, isGitAvailable cwd pathEnv o = false →
        ∃ e : JsError, executeGitCommand ["--version"] cwd pathEnv o = .error e
          ∧ strIncludes e.message "Git executable not found" = true) := by
  have hdiag : strIncludes (gitNotFoundMessage ["--version"] pathEnv)
      "Git executable not found" = true := by
    apply strIncludes_of_data_infix
    have hpre : ("Git executable not found" : String).data <+:
        ("Git executable not found. Please ensure git is installed and available in your PATH.\n" : String).data := by
      decide
    simp only [gitNotFoundMessage, strData_append, List.append_assoc]
    exact (hpre.trans (List.prefix_append _ _)).isInfix
  refine ⟨?_, ?_, ?_, ?_, ?_, ?_⟩
  · intro m
    simp [isGitAvailable, executeGitCommand, hdiag]
  · intro out err
    simp [isGitAvailable, executeGitCommand]
  · intro c out err hc herr
    by_cases he : err = ""
    · subst he
      have hsynth : strIncludes ("Git command failed: git " ++ joinArgs ["--version"])
          "Git executable not found" = false := by decide
      simp [isGitAvailable, executeGitCommand, hc, hsynth]
    · simp [isGitAvailable, executeGitCommand, hc, he, herr]
  · intro e he hm
    simp [isGitAvailable, executeGitCommand, he, hm]
  · intro o e he hm
    unfold isGitAvailable
    rw [he]
    simp [hm]
  · intro o h
    match o with
    | .exited c out err =>
      by_cases hc : c = some 0
      · subst hc; simp [isGitAvailable, executeGitCommand] at h
      · refine ⟨⟨none, if err = "" then "Git command failed: git " ++ joinArgs ["--version"]
          else err⟩, by simp [executeGitCommand, hc], ?_⟩
        simp only [isGitAvailable, executeGitCommand, hc] at h ⊢
        simpa using h
    | .errored e =>
      by_cases he : e.code = some "ENOENT"
      · refine ⟨⟨none, gitNotFoundMessage ["--version"] pathEnv⟩,
          by simp [executeGitCommand, he], hdiag⟩
      · refine ⟨e, by simp [executeGitCommand, he], ?_⟩
        simp only [isGitAvailable, executeGitCommand, he] at h ⊢
        simpa using h

/-- Witness for C4 (amended) at concrete inputs: the `ENOENT` spawn
failure yields `false`, an ordinary non-zero exit of the probe yields
`true`, and a non-zero exit whose stderr contains the discriminating text
yields `false`. -/
theorem C4_isGitAvailable_amended_witness :
    isGitAvailable "/repo" "/usr/bin"
        (.errored ⟨some "ENOENT", "spawn git ENOENT"⟩) = false
    ∧ isGitAvailable "/repo" "/usr/bin"
        (.exited (some 128) "" "fatal: bad revision") = true
    ∧ isGitAvailable "/repo" "/usr/bin"
        (.exited (some 2) "" "xx Git executable not found yy") = false := by
  have h := C4_isGitAvailable_amended "/repo" "/usr/bin"
  exact ⟨h.1 "spawn git ENOENT",
    h.2.2.1 (some 128) "" "fatal: bad revision" (by decide) (by decide),
    h.2.2.2.2.1 (.exited (some 2) "" "xx Git executable not found yy")
      ⟨none, "xx Git executable not found yy"⟩ rfl (by decide)⟩

/-- C7: `isGitRepository` returns `true` exactly when the
`git rev-parse --git-dir` probe resolves, and `false` on every rejection
of the probe; being `Bool`-valued, the operation itself never rejects. -/
theorem C7_isGitRepository (p pathEnv : String) (o : ProcessOutcome) :
    (isGitRepository p pathEnv o = true ↔
      ∃ s, executeGitCommand ["rev-parse", "--git-dir"] p pathEnv o = .ok s)
    ∧ (∀ e : JsError,
        executeGitCommand ["rev-parse", "--git-dir"] p pathEnv o = .error e →
          isGitRepository p pathEnv o = false) := by
  constructor
  · constructor
    · intro h
      unfold isGitRepository at h
      cases hx : executeGitCommand ["rev-parse", "--git-dir"] p pathEnv o with
      | ok s => exact ⟨s, rfl⟩
      | error e => rw [hx] at h; simp at h
    · rintro ⟨s, hs⟩
      unfold isGitRepository
      rw [hs]
  · intro e he
    unfold isGitRepository
    rw [he]

/-- Witness for C7 at concrete inputs: a failing probe (not a repository)
yields `false`, a succeeding probe yields `true`. -/
theorem C7_isGitRepository_witness :
    isGitRepository "/tmp" "/usr/bin"
        (.exited (some 128) "" "fatal: not a git repository") = false
    ∧ isGitRepository "/repo" "/usr/bin" (.exited (some 0) ".git\n" "") = true := by
  constructor
  · exact (C7_isGitRepository "/tmp" "/usr/bin" _).2
      ⟨none, "fatal: not a git repository"⟩ rfl
  · exact (C7_isGitRepository "/repo" "/usr/bin" _).1.mpr ⟨".git\n", rfl⟩

/-- C1: when the `git worktree remove --force` command succeeds but the
subsequent `git branch -D` command fails, `removeWorktree` resolves with
`success = true` and a non-empty warning carrying the branch-deletion
error text; when the worktree-removal command itself fails,
`removeWorktree` rejects with a wrapped message containing the underlying
error text. -/
theorem C1_removeWorktree (projectPath worktreePath branchName pathEnv : String) :
    (∀ (out err : String) (bo : ProcessOutcome) (e : JsError),
      executeGitCommand ["branch", "-D", branchName] projectPath pathEnv bo = .error e →
        removeWorktree projectPath worktreePath branchName pathEnv
            (.exited (some 0) out err) bo =
          .ok ⟨true, some ("Worktree removed but failed to delete branch: " ++
            jsErrorToString e)⟩
        ∧ ("Worktree removed but failed to delete branch: " ++ jsErrorToString e) ≠ "")
    ∧ (∀ (ro bo : ProcessOutcome) (e : JsError),
        executeGitCommand ["worktree", "remove", worktreePath, "--force"]
            projectPath pathEnv ro = .error e →
          removeWorktree projectPath worktreePath branchName pathEnv ro bo =
            .error ⟨none, "Failed to remove worktree: " ++ jsErrorToString e⟩) := by
  constructor
  · intro out err bo e hbo
    have h1 : executeGitCommand ["worktree", "remove", worktreePath, "--force"]
        projectPath pathEnv (.exited (some 0) out err) = .ok out := by
      simp [executeGitCommand]
    constructor
    · unfold removeWorktree
      rw [h1, hbo]
    · exact strAppend_ne_empty_left _ _ (by decide)
  · intro ro bo e hro
    unfold removeWorktree
    rw [hro]

/-- Witness for C1 at concrete inputs: a branch-deletion failure after a
successful worktree removal resolves with `success = true` and the
warning, and a worktree-removal failure rejects with the wrapped
message. -/
theorem C1_removeWorktree_witness :
    removeWorktree "/a/proj" "/a/proj-feat" "feat" "/usr/bin"
        (.exited (some 0) "" "") (.exited (some 1) "" "error: branch not found") =
      .ok ⟨true, some "Worktree removed but failed to delete branch: Error: error: branch not found"⟩
    ∧ removeWorktree "/a/proj" "/a/proj-feat" "feat" "/usr/bin"
        (.exited (some 1) "" "fatal: working tree locked") (.exited (some 0) "" "") =
      .error ⟨none, "Failed to remove worktree: Error: fatal: working tree locked"⟩ := by
  have h := C1_removeWorktree "/a/proj" "/a/proj-feat" "feat" "/usr/bin"
  constructor
  · have h1 := (h.1 "" "" (.exited (some 1) "" "error: branch not found")
      ⟨none, "error: branch not found"⟩ rfl).1
    simpa [jsErrorToString] using h1
  · have h2 := h.2 (.exited (some 1) "" "fatal: working tree locked")
      (.exited (some 0) "" "") ⟨none, "fatal: working tree locked"⟩ rfl
    simpa [jsErrorToString] using h2

/-- C9: whenever `removeWorktree` resolves, the resolved value has
`success = true`; the operation never resolves with `success = false`. -/
theorem C9_removeWorktree_success (projectPath worktreePath branchName pathEnv : String)
    (ro bo : ProcessOutcome) (r : WorktreeRemoveResult)
    (h : removeWorktree projectPath worktreePath branchName pathEnv ro bo = .ok r) :
    r.success = true := by
  unfold removeWorktree at h
  cases h1 : executeGitCommand ["worktree", "remove", worktreePath, "--force"]
      projectPath pathEnv ro with
  | ok s =>
    rw [h1] at h
    cases h2 : executeGitCommand ["branch", "-D", branchName] projectPath pathEnv bo with
    | ok t =>
      rw [h2] at h
      simp at h
      rw [← h]
    | error e =>
      rw [h2] at h
      simp at h
      rw [← h]
  | error e =>
    rw [h1] at h
    simp at h

/-- Witness for C9 at a concrete input: both commands succeed and the
resolved result has `success = true`. -/
theorem C9_removeWorktree_success_witness :
    (⟨true, none⟩ : WorktreeRemoveResult).success = true :=
  C9_removeWorktree_success "/a/proj" "/a/proj-feat" "feat" "/usr/bin"
    (.exited (some 0) "" "") (.exited (some 0) "" "") ⟨true, none⟩ rfl

/-- C3: `addWorktree` issues exactly one git invocation,
`worktree add -b <branchName> <target>` in the project directory, where
the target is `path.join(projectPath, '..',
basename(projectPath) + '-' + branchName)`; on success it returns the
computed target path and the given branch name (never parsed from git
output, which it discards); in particular `addWorktree("/a/proj", "feat")`
returns `{path: "/a/proj-feat", branch: "feat"}`. -/
theorem C3_addWorktree (projectPath branchName pathEnv : String) (o : ProcessOutcome) :
    (addWorktree projectPath branchName pathEnv o).2 =
      [⟨["worktree", "add", "-b", branchName,
          pathJoin [projectPath, "..", pathBasename projectPath ++ "-" ++ branchName]],
        projectPath⟩]
    ∧ (∀ out err : String,
        (addWorktree projectPath branchName pathEnv (.exited (some 0) out err)).1 =
          .ok ⟨pathJoin [projectPath, "..",
                  pathBasename projectPath ++ "-" ++ branchName],
                branchName⟩)
    ∧ (∀ out err : String,
        (addWorktree "/a/proj" "feat" pathEnv (.exited (some 0) out err)).1 =
          .ok ⟨"/a/proj-feat", "feat"⟩) := by
  refine ⟨?_, ?_, ?_⟩
  · unfold addWorktree
    cases hx : executeGitCommand ["worktree", "add", "-b", branchName,
        pathJoin [projectPath, "..", pathBasename projectPath ++ "-" ++ branchName]]
        projectPath pathEnv o <;> simp [hx]
  · intro out err
    rfl
  · intro out err
    rfl

/-- C8: `GET /api/directories` with a missing or empty `path` query
parameter responds 400 with an `error` field, and likewise with a `path`
longer than 1000 characters, regardless of what the path-validation and
directory-listing collaborators would do. -/
theorem C8_directoriesRoute (validateRes : Except String PathValidation)
    (listRes : Except String (List String)) :
    (directoriesRoute none validateRes listRes).status = 400
    ∧ (directoriesRoute none validateRes listRes).error = some "Invalid path parameter"
    ∧ (directoriesRoute (some "") validateRes listRes).status = 400
    ∧ (directoriesRoute (some "") validateRes listRes).error = some "Invalid path parameter"
    ∧ (∀ p : String, p.length > 1000 →
        (directoriesRoute (some p) validateRes listRes).status = 400
        ∧ (directoriesRoute (some p) validateRes listRes).error =
            some "Invalid path parameter") := by
  refine ⟨rfl, rfl, rfl, rfl, ?_⟩
  intro p hp
  have hcond : (p = "" ∨ p.length > 1000) := Or.inr hp
  constructor <;> simp [directoriesRoute, hcond]

set_option maxRecDepth 8192 in
/-- Witness for C8 at a concrete input: a 1001-character path is rejected
with 400 and the `error` field. -/
theorem C8_directoriesRoute_witness :
    (directoriesRoute (some (String.mk (List.replicate 1001 'a')))
        (.ok ⟨true, none⟩) (.ok [])).status = 400
    ∧ (directoriesRoute (some (String.mk (List.replicate 1001 'a')))
        (.ok ⟨true, none⟩) (.ok [])).error = some "Invalid path parameter" :=
  (C8_directoriesRoute (.ok ⟨true, none⟩) (.ok [])).2.2.2.2
    (String.mk (List.replicate 1001 'a')) (by decide)

/-- Behaviour of the shared try/catch translation of the git routes. -/
theorem wrapGitRoute_cases {α : Type} (r : Except JsError α) :
    ((wrapGitRoute r).status = 200 ∨ (wrapGitRoute r).status = 500)
    ∧ (wrapGitRoute r).status ≠ 400
    ∧ (∀ x, r = .ok x → wrapGitRoute r = .json 200 x)
    ∧ (∀ e, r = .error e → wrapGitRoute r = .jsonError 500 e.message) := by
  cases r <;> simp [wrapGitRoute, GitRouteReply.status]

/-- C10: the five git REST routes perform no request-body validation: for
every request body, including one with missing fields, each handler passes
the body's field values directly to its git operation and responds 200
with the operation's result or 500 with the error message; none of these
handlers ever responds 400. -/
theorem C10_gitRoutes_no_validation (body : GitBody)
    (lwOp : Option String → Except JsError (List Worktree))
    (gsOp : Option String → Except JsError (List GitStatus))
    (gdOp : Option String → Option String → Except JsError String)
    (awOp : Option String → Option String → Except JsError WorktreeAddResult)
    (rwOp : Option String → Option String → Option String →
      Except JsError WorktreeRemoveResult) :
    (((gitWorktreesRoute body lwOp).status = 200 ∨
        (gitWorktreesRoute body lwOp).status = 500)
      ∧ (gitWorktreesRoute body lwOp).status ≠ 400
      ∧ (∀ x, lwOp body.projectPath = .ok x →
          gitWorktreesRoute body lwOp = .json 200 x)
      ∧ (∀ e, lwOp body.projectPath = .error e →
          gitWorktreesRoute body lwOp = .jsonError 500 e.message))
    ∧ (((gitStatusRoute body gsOp).status = 200 ∨
        (gitStatusRoute body gsOp).status = 500)
      ∧ (gitStatusRoute body gsOp).status ≠ 400
      ∧ (∀ x, gsOp body.worktreePath = .ok x →
          gitStatusRoute body gsOp = .json 200 x)
      ∧ (∀ e, gsOp body.worktreePath = .error e →
          gitStatusRoute body gsOp = .jsonError 500 e.message))
    ∧ (((gitDiffRoute body gdOp).status = 200 ∨
        (gitDiffRoute body gdOp).status = 500)
      ∧ (gitDiffRoute body gdOp).status ≠ 400
      ∧ (∀ x, gdOp body.worktreePath body.filePath = .ok x →
          gitDiffRoute body gdOp = .json 200 x)
      ∧ (∀ e, gdOp body.worktreePath body.filePath = .error e →
          gitDiffRoute body gdOp = .jsonError 500 e.message))
    ∧ (((gitWorktreeAddRoute body awOp).status = 200 ∨
        (gitWorktreeAddRoute body awOp).status = 500)
      ∧ (gitWorktreeAddRoute body awOp).status ≠ 400
      ∧ (∀ x, awOp body.projectPath body.branchName = .ok x →
          gitWorktreeAddRoute body awOp = .json 200 x)
      ∧ (∀ e, awOp body.projectPath body.branchName = .error e →
          gitWorktreeAddRoute body awOp = .jsonError 500 e.message))
    ∧ (((gitWorktreeDeleteRoute body rwOp).status = 200 ∨
        (gitWorktreeDeleteRoute body rwOp).status = 500)
      ∧ (gitWorktreeDeleteRoute body rwOp).status ≠ 400
      ∧ (∀ x, rwOp body.projectPath body.worktreePath body.branchName = .ok x →
          gitWorktreeDeleteRoute body rwOp = .json 200 x)
      ∧ (∀ e, rwOp body.projectPath body.worktreePath body.branchName = .error e →
          gitWorktreeDeleteRoute body rwOp = .jsonError 500 e.message)) :=
  ⟨wrapGitRoute_cases _, wrapGitRoute_cases _, wrapGitRoute_cases _,
    wrapGitRoute_cases _, wrapGitRoute_cases _⟩

/-- Witness for C10 at concrete inputs: with an entirely empty request
body, a failing operation maps to 500 with the error message and a
succeeding one maps to 200 with its result. -/
theorem C10_gitRoutes_no_validation_witness :
    gitWorktreesRoute ⟨none, none, none, none⟩
        (fun _ => .error ⟨none, "fatal: bad repository"⟩) =
      .jsonError 500 "fatal: bad repository"
    ∧ gitDiffRoute ⟨none, none, none, none⟩ (fun _ _ => .ok "diff text") =
      .json 200 "diff text" := by
  have h := C10_gitRoutes_no_validation ⟨none, none, none, none⟩
    (fun _ => .error ⟨none, "fatal: bad repository"⟩)
    (fun _ => .ok [])
    (fun _ _ => .ok "diff text")
    (fun _ _ => .ok ⟨"", ""⟩)
    (fun _ _ _ => .ok ⟨true, none⟩)
  exact ⟨h.1.2.2.2 ⟨none, "fatal: bad repository"⟩ rfl,
    h.2.2.1.2.2.1 "diff text" rfl⟩

/-- A rendered record has at least its `worktree` line. -/
theorem renderRecord_ne_nil (r : RawRecord) : renderRecord r ≠ [] := by
  simp [renderRecord]

/-- Every line rendered from an optional `key value` field is
non-blank. -/
theorem mem_optLine_ne_empty (pre : String) (hpre : pre.length ≠ 0) (o : Option String) :
    ∀ l ∈ (match o with | some v => [pre ++ v] | none => ([] : List String)), l ≠ "" := by
  cases o with
  | none => simp
  | some v =>
    intro l hl
    simp only [List.mem_singleton] at hl
    subst hl
    exact strAppend_ne_empty_left pre v hpre

/-- Every line rendered from a presence-only flag is non-blank. -/
theorem mem_flagLine_ne_empty (s : String) (hs : s ≠ "") (b : Bool) :
    ∀ l ∈ (if b then [s] else ([] : List String)), l ≠ "" := by
  cases b with
  | false => simp
  | true =>
    intro l hl
    simp at hl
    subst hl
    exact hs

/-- No line of a rendered record is blank. -/
theorem mem_renderRecord_ne_empty (r : RawRecord) :
    ∀ l ∈ renderRecord r, l ≠ "" := by
  intro l hl
  unfold renderRecord at hl
  rcases List.mem_append.1 hl with h | h
  · rcases List.mem_append.1 h with h | h
    · rcases List.mem_append.1 h with h | h
      · rcases List.mem_append.1 h with h | h
        · simp only [List.mem_singleton] at h
          subst h
          exact strAppend_ne_empty_left _ _ (by decide)
        · exact mem_optLine_ne_empty "HEAD " (by decide) r.head l h
      · exact mem_optLine_ne_empty "branch refs/heads/" (by decide) r.branch l h
    · exact mem_flagLine_ne_empty "bare" (by decide) r.bare l h
  · exact mem_flagLine_ne_empty "locked" (by decide) r.locked l h

/-- Feeding a run of non-blank lines into the record grouper extends the
current record. -/
theorem groupRecords_append : ∀ (g : List String), (∀ l ∈ g, l ≠ "") →
    ∀ (cur rest : List String),
      groupRecords cur (g ++ rest) = groupRecords (g.reverse ++ cur) rest := by
  intro g
  induction g with
  | nil =>
    intro _ cur rest
    simp
  | cons x xs ih =>
    intro hg cur rest
    have hx : x ≠ "" := hg x (by simp)
    have hxs : ∀ l ∈ xs, l ≠ "" := fun l hl => hg l (by simp [hl])
    have step : groupRecords cur ((x :: xs) ++ rest) =
        groupRecords (x :: cur) (xs ++ rest) := by
      simp only [List.cons_append, groupRecords, if_neg hx, List.append_eq]
    rw [step, ih hxs]
    congr 1
    simp

/-- The grouper recovers exactly the rendered records. -/
theorem groupRecords_renderRecords (rs : List RawRecord) :
    groupRecords [] (renderRecords rs) = rs.map renderRecord := by
  induction rs with
  | nil => rfl
  | cons r rest ih =>
    cases rest with
    | nil =>
      have h := groupRecords_append (renderRecord r) (mem_renderRecord_ne_empty r) [] []
      simp only [List.append_nil] at h
      have hne : (renderRecord r).reverse ≠ [] := by
        simp [renderRecord_ne_nil r]
      rw [show renderRecords [r] = renderRecord r from rfl, h]
      simp [groupRecords, hne]
    | cons r2 rest2 =>
      rw [show renderRecords (r :: r2 :: rest2) =
            renderRecord r ++ "" :: renderRecords (r2 :: rest2) from rfl,
          groupRecords_append (renderRecord r) (mem_renderRecord_ne_empty r) [] _]
      have hne : (renderRecord r).reverse ++ [] ≠ [] := by
        simp [renderRecord_ne_nil r]
      simp [groupRecords, hne, renderRecord_ne_nil r, ih]

/-- Reading a porcelain line never changes the `isMain` mark of the record
being built. -/
theorem applyWorktreeLine_isMain (w : Worktree) (l : String) :
    (applyWorktreeLine w l).isMain = w.isMain := by
  unfold applyWorktreeLine
  split_ifs <;> rfl

/-- The `isMain` mark of a parsed record is exactly the one it was
seeded with. -/
theorem parseWorktreeRecord_isMain (b : Bool) (lines : List String) :
    (parseWorktreeRecord b lines).isMain = b := by
  have hfold : ∀ (ls : List String) (w : Worktree),
      (ls.foldl applyWorktreeLine w).isMain = w.isMain := by
    intro ls
    induction ls with
    | nil => intro w; rfl
    | cons x xs ih =>
      intro w
      rw [List.foldl_cons, ih, applyWorktreeLine_isMain]
  rw [parseWorktreeRecord, hfold]
  rfl

/-- Every record parsed as a linked worktree carries `isMain = false`. -/
theorem parsed_linked_isMain (gs : List RawRecord) :
    ((gs.map renderRecord).map (parseWorktreeRecord false)).map Worktree.isMain =
      List.replicate gs.length false := by
  induction gs with
  | nil => rfl
  | cons g rest ih =>
    simp only [List.map_cons, List.length_cons, List.replicate_succ]
    rw [parseWorktreeRecord_isMain, ih]

/-- C6: for a valid `git worktree list --porcelain` text of N
blank-line-separated records, the worktree-list parser (used by
`listWorktrees`) returns exactly N entries, the first marked as the main
worktree and all others not; a concrete two-record text parses to the
expected two entries. -/
theorem C6_parseWorktrees (rs : List RawRecord) (hne : rs ≠ []) :
    (parseWorktreeLines (renderRecords rs)).length = rs.length
    ∧ (parseWorktreeLines (renderRecords rs)).map Worktree.isMain =
        true :: List.replicate (rs.length - 1) false
    ∧ parseWorktrees
        "worktree /a\nHEAD 1111\nbranch refs/heads/main\n\nworktree /b\nHEAD 2222\nbranch refs/heads/feat\n" =
      [⟨"/a", "main", true, false, "1111"⟩, ⟨"/b", "feat", false, false, "2222"⟩] := by
  obtain ⟨r0, rest, rfl⟩ := List.exists_cons_of_ne_nil hne
  have hgroups : groupRecords [] (renderRecords (r0 :: rest)) =
      renderRecord r0 :: rest.map renderRecord := by
    rw [groupRecords_renderRecords]
    rfl
  refine ⟨?_, ?_, by decide⟩
  · unfold parseWorktreeLines
    rw [hgroups]
    simp
  · unfold parseWorktreeLines
    rw [hgroups]
    simp only [List.map_cons, List.length_cons, Nat.succ_sub_one]
    rw [parseWorktreeRecord_isMain, parsed_linked_isMain]

/-- Witness for C6 at a concrete two-record input (the second record
detached and locked): two entries, the first main. -/
theorem C6_parseWorktrees_witness :
    (parseWorktreeLines (renderRecords
        [⟨"/a", some "1111", some "main", false, false⟩,
         ⟨"/b", some "2222", none, false, true⟩])).length = 2
    ∧ (parseWorktreeLines (renderRecords
        [⟨"/a", some "1111", some "main", false, false⟩,
         ⟨"/b", some "2222", none, false, true⟩])).map Worktree.isMain =
      [true, false] := by
  have h := C6_parseWorktrees
    [⟨"/a", some "1111", some "main", false, false⟩,
     ⟨"/b", some "2222", none, false, true⟩] (by decide)
  exact ⟨h.1, h.2.1⟩

end VibeTree
